import Mathlib

/-!
Shallow embedding of the peer run-state machine of `proxy/coco`
(`src/peer/run_state.rs`) and of the merge-request discovery function
(`src/merge_request.rs`), together with theorems settling the frozen
claims about them.

Conventions of the embedding:
* `PeerId`, `Urn`, `Oid` are opaque identifiers, modelled as `Nat`.
* `SystemTime` / `Duration` are modelled as `Nat`; every call of
  `SystemTime::now()` inside one `transition` call reads the same
  clock value `now`, passed as an extra argument (the spec's clock
  abstraction, §9 "Reducer purity").
* Rust's `HashSet<PeerId>` is modelled as `Finset Nat`; the
  nondeterministic iteration order of `HashSet::difference` in
  `handle_stats` is fixed to first-occurrence order of the incoming
  peer list.
* `&mut self` mutation becomes explicit state passing: every handler
  returns the new `RunState` together with the command list.
-/

namespace Coco

/-- Opaque public-key-derived peer identity, modelled as a natural number. -/
abbrev PeerId := Nat

/-- Opaque content-addressed resource identifier, modelled as a natural number. -/
abbrev Urn := Nat

/-- Git object id, modelled as a natural number. -/
abbrev Oid := Nat

/-- The slice of `net::protocol::event::downstream::Stats` the reducer reads. -/
structure Stats where
  connected_peers : Nat
deriving DecidableEq

/-- Sync section of the run-state `Config` (`run_state/config.rs`). -/
structure SyncConfig where
  on_startup : Bool
  max_peers : Nat
  period : Nat
deriving DecidableEq

/-- Run-state configuration; only the sync section is read by the reducer. -/
structure Config where
  sync : SyncConfig
deriving DecidableEq

/-! ## Waiting room

The waiting-room sources are not part of the provided `src/` tree (only
`run_state.rs` calls into it), so the component is modelled from the
spec, §4.2. -/

/-- Modelled from the spec: per-URN request lifecycle states of a
waiting-room entry (spec §3, "WaitingRoom entries"). -/
inductive RequestState
  | created
  | requested
  | found
  | cloning
  | cloned
  | cancelled
  | timedOut
deriving DecidableEq

/-- Modelled from the spec: one waiting-room entry (spec §3): lifecycle
state, candidate peers, attempted clone peers, attempt counters and
timestamps. -/
structure WrRequest where
  state : RequestState
  candidates : List PeerId
  attempted : List PeerId
  queries : Nat
  clones : Nat
  created_at : Nat
  last_queried : Option Nat
deriving DecidableEq

/-- Modelled from the spec: waiting-room configuration knobs
(spec §3 "Config": query_interval, max_queries, max_clones). -/
structure WrConfig where
  query_interval : Nat
  max_queries : Nat
  max_clones : Nat
deriving DecidableEq

/-- Modelled from the spec: the waiting room keeps exactly one entry per
URN; entries are kept in insertion order. -/
structure WaitingRoom where
  config : WrConfig
  entries : List (Urn × WrRequest)
deriving DecidableEq

/-- Modelled from the spec: error kinds surfaced by waiting-room
operations (spec §7): attempt/age ceiling exceeded, or an operation that
violates the entry state machine. -/
inductive WrError
  | timeOut
  | invalidTransition
deriving DecidableEq

namespace WaitingRoom

/-- Look up the entry for a URN. -/
def get (w : WaitingRoom) (urn : Urn) : Option WrRequest :=
  (w.entries.find? (fun e => e.1 = urn)).map (fun e => e.2)

/-- Replace the entry for a URN (which must already be present). -/
def set (w : WaitingRoom) (urn : Urn) (r : WrRequest) : WaitingRoom :=
  { w with entries := w.entries.map (fun e => if e.1 = urn then (urn, r) else e) }

/-- Modelled from the spec: `request(urn, now)` inserts a fresh entry in
`Created` state if absent, otherwise returns the existing one (spec
§4.2). Returns the entry together with the updated room. -/
def request (w : WaitingRoom) (urn : Urn) (now : Nat) : WrRequest × WaitingRoom :=
  match w.get urn with
  | some r => (r, w)
  | none =>
      let r : WrRequest :=
        { state := .created, candidates := [], attempted := []
          queries := 0, clones := 0, created_at := now, last_queried := none }
      (r, { w with entries := w.entries ++ [(urn, r)] })

/-- Modelled from the spec: `queried(urn, now)`: state must be
Created/Requested; sets Requested, increments the query count and stamps
`last_queried`; fails with `TimeOut` once `max_queries` is reached
(spec §4.2). -/
def queried (w : WaitingRoom) (urn : Urn) (now : Nat) : Except WrError WaitingRoom :=
  match w.get urn with
  | none => .error .invalidTransition
  | some r =>
      if r.state = .created ∨ r.state = .requested then
        if w.config.max_queries ≤ r.queries then .error .timeOut
        else .ok (w.set urn
          { r with state := .requested, queries := r.queries + 1, last_queried := some now })
      else .error .invalidTransition

/-- Modelled from the spec: `found(urn, peer, now)` adds the peer to the
candidates; if the state is Requested it moves to Found; fails with
`TimeOut` under the same ceiling as `queried`, and with an invalid
transition on a terminal entry or a missing one (spec §4.2). -/
def found (w : WaitingRoom) (urn : Urn) (peer : PeerId) (now : Nat) :
    Except WrError WaitingRoom :=
  match w.get urn with
  | none => .error .invalidTransition
  | some r =>
      if r.state = .cloned ∨ r.state = .cancelled ∨ r.state = .timedOut then
        .error .invalidTransition
      else if w.config.max_queries ≤ r.queries ∧ (r.state = .created ∨ r.state = .requested) then
        .error .timeOut
      else
        let cands := if peer ∈ r.candidates then r.candidates else r.candidates ++ [peer]
        let st := if r.state = .requested then RequestState.found else r.state
        .ok (w.set urn { r with candidates := cands, state := st })

/-- Modelled from the spec: `cloning(urn, peer, now)`: state must be
Found; moves to Cloning and records the attempted peer; fails with
`TimeOut` when the clone-attempt ceiling is exceeded (spec §4.2). -/
def cloning (w : WaitingRoom) (urn : Urn) (peer : PeerId) (now : Nat) :
    Except WrError WaitingRoom :=
  match w.get urn with
  | none => .error .invalidTransition
  | some r =>
      if r.state = .found then
        if w.config.max_clones ≤ r.clones then .error .timeOut
        else
          let att := if peer ∈ r.attempted then r.attempted else r.attempted ++ [peer]
          .ok (w.set urn { r with state := .cloning, clones := r.clones + 1, attempted := att })
      else .error .invalidTransition

/-- Modelled from the spec: `cloned(urn, peer, now)` moves a Cloning
entry to the terminal Cloned state (spec §4.2). -/
def cloned (w : WaitingRoom) (urn : Urn) (peer : PeerId) (now : Nat) :
    Except WrError WaitingRoom :=
  match w.get urn with
  | none => .error .invalidTransition
  | some r =>
      if r.state = .cloning then .ok (w.set urn { r with state := .cloned })
      else .error .invalidTransition

/-- Modelled from the spec: `cloning_failed(urn, peer, now)` moves a
Cloning entry back to Found, or to Requested when no unattempted
candidate remains; may yield `TimeOut` at the clone ceiling (spec §4.2). -/
def cloning_failed (w : WaitingRoom) (urn : Urn) (peer : PeerId) (now : Nat) :
    Except WrError WaitingRoom :=
  match w.get urn with
  | none => .error .invalidTransition
  | some r =>
      if r.state = .cloning then
        if w.config.max_clones ≤ r.clones ∧ r.candidates.all (fun p => p ∈ r.attempted) then
          .error .timeOut
        else
          let st := if r.candidates.any (fun p => p ∉ r.attempted)
            then RequestState.found else RequestState.requested
          .ok (w.set urn { r with state := st })
      else .error .invalidTransition

/-- Modelled from the spec: `canceled(urn, now)` moves a non-terminal
entry to the terminal Cancelled state; cancelling a terminal or missing
entry violates the entry state machine (spec §4.2). -/
def canceled (w : WaitingRoom) (urn : Urn) (now : Nat) : Except WrError WaitingRoom :=
  match w.get urn with
  | none => .error .invalidTransition
  | some r =>
      if r.state = .cloned ∨ r.state = .cancelled ∨ r.state = .timedOut then
        .error .invalidTransition
      else .ok (w.set urn { r with state := .cancelled })

/-- Modelled from the spec: `remove(urn)` deletes the entry, returning
the removed value (spec §4.2). -/
def remove (w : WaitingRoom) (urn : Urn) : Option WrRequest × WaitingRoom :=
  (w.get urn, { w with entries := w.entries.filter (fun e => ¬ e.1 = urn) })

/-- Whether an entry is eligible for (re-)query: state Created or
Requested and the query interval elapsed since `last_queried`. -/
def queryEligible (cfg : WrConfig) (r : WrRequest) (now : Nat) : Bool :=
  (decide (r.state = .created) || decide (r.state = .requested)) &&
    (match r.last_queried with
     | none => true
     | some t => decide (cfg.query_interval ≤ now - t))

/-- Modelled from the spec: `next_query(now)` returns a URN eligible for
re-query, oldest `last_queried` first, ties by URN order (spec §4.2). -/
def next_query (w : WaitingRoom) (now : Nat) : Option Urn :=
  let eligible := w.entries.filter (fun e => queryEligible w.config e.2 now)
  match eligible with
  | [] => none
  | e :: rest =>
      some (rest.foldl
        (fun best cur =>
          let kb := ((w.get best).map (fun r => r.last_queried.getD 0)).getD 0
          let kc := cur.2.last_queried.getD 0
          if kc < kb ∨ (kc = kb ∧ cur.1 < best) then cur.1 else best)
        e.1)

/-- Modelled from the spec: `next_clone()` returns the first entry (in
insertion order) in state Found having an unattempted candidate, paired
with the first such candidate (spec §4.2). -/
def next_clone (w : WaitingRoom) : Option (Urn × PeerId) :=
  w.entries.findSome? (fun e =>
    if e.2.state = .found then
      (e.2.candidates.find? (fun p => ¬ p ∈ e.2.attempted)).map (fun p => (e.1, p))
    else none)

end WaitingRoom

/-! ## Status, inputs, commands (run_state.rs) -/

/-- The current status of the local peer (`Status` in run_state.rs). -/
inductive Status
  | stopped
  | started
  | offline
  | syncing (failed : Finset PeerId) (succeeded : Finset PeerId) (syncs : Finset PeerId)
  | online (connected : Nat)
deriving DecidableEq

/-- Input family `input::Announce`. -/
inductive AnnounceInput
  | tick
  | succeeded (updates : Nat)
deriving DecidableEq

/-- Input family `input::Control`; the one-shot response sink is an
opaque token. -/
inductive ControlInput
  | cancelRequest (urn : Urn) (timestamp : Nat) (sender : Nat)
  | createRequest (urn : Urn) (time : Nat) (sender : Nat)
  | getRequest (urn : Urn) (sender : Nat)
  | listRequests (sender : Nat)
  | currentStatus (sender : Nat)
deriving DecidableEq

/-- Input family `input::Sync` (peer sync progress). -/
inductive SyncInput
  | started (peer : PeerId)
  | failed (peer : PeerId)
  | succeeded (peer : PeerId)
deriving DecidableEq

/-- The slice of librad `ProtocolEvent` matched by `handle_protocol`:
endpoint up/down, a gossip `Put { payload.urn, provider.peer_id }`, and
further events (connection events, listening) that fall to the wildcard
arm. -/
inductive ProtocolEvent
  | endpointUp
  | endpointDown
  | gossipPut (urn : Urn) (provider : PeerId)
  | connected (peer : PeerId)
  | disconnecting (peer : PeerId)
  | listening
deriving DecidableEq

/-- Input family `input::Request`. -/
inductive RequestInput
  | tick
  | cloning (urn : Urn) (remote_peer : PeerId)
  | cloned (urn : Urn) (remote_peer : PeerId)
  | queried (urn : Urn)
  | failed (urn : Urn) (remote_peer : PeerId) (reason : Nat)
  | timedOut (urn : Urn)
deriving DecidableEq

/-- Input family `input::Stats`. -/
inductive StatsInput
  | tick
  | values (connected_peers : List PeerId) (stats : Stats)
deriving DecidableEq

/-- Input family `input::Timeout`. -/
inductive TimeoutInput
  | syncPeriod
deriving DecidableEq

/-- The reducer input vocabulary (`Input` in run_state.rs). -/
inductive Input
  | announce (i : AnnounceInput)
  | control (i : ControlInput)
  | protocol (e : ProtocolEvent)
  | peerSync (i : SyncInput)
  | request (i : RequestInput)
  | stats (i : StatsInput)
  | timeout (i : TimeoutInput)
deriving DecidableEq

/-- Command family `command::Request`. -/
inductive RequestCommand
  | query (urn : Urn)
  | clone (urn : Urn) (remote_peer : PeerId)
  | timedOut (urn : Urn)
deriving DecidableEq

/-- Equality on `Except` results is decidable when it is on both sides. -/
instance instDecEqExcept {ε α : Type} [DecidableEq ε] [DecidableEq α] :
    DecidableEq (Except ε α) := fun
  | .ok a, .ok b =>
      if h : a = b then .isTrue (by rw [h])
      else .isFalse (by intro he; cases he; exact h rfl)
  | .ok _, .error _ => .isFalse (by intro h; cases h)
  | .error _, .ok _ => .isFalse (by intro h; cases h)
  | .error e, .error f =>
      if h : e = f then .isTrue (by rw [h])
      else .isFalse (by intro he; cases he; exact h rfl)

/-- Control responses (`control::Response`). -/
inductive ControlResponse
  | startSearch (sender : Nat) (request : WrRequest)
  | cancelSearch (sender : Nat) (request : Except WrError (Option WrRequest))
  | getSearch (sender : Nat) (request : Option WrRequest)
  | listSearches (sender : Nat) (requests : List WrRequest)
  | currentStatus (sender : Nat) (status : Status)
deriving DecidableEq

/-- Command family `command::Control`. -/
inductive ControlCommand
  | respond (response : ControlResponse)
deriving DecidableEq

/-- The slice of `Event` that appears inside commands. -/
inductive Event
  | requestCreated (urn : Urn)
deriving DecidableEq

/-- The reducer command vocabulary (`Command` in run_state/command.rs). -/
inductive Command
  | announce
  | control (c : ControlCommand)
  | syncPeer (peer : PeerId)
  | startSyncTimeout (period : Nat)
  | stats
  | persistWaitingRoom (room : WaitingRoom)
  | emitEvent (e : Event)
  | request (r : RequestCommand)
deriving DecidableEq

/-- State kept for a running local peer (`RunState` in run_state.rs). -/
structure RunState where
  config : Config
  connected_peers : Finset PeerId
  status : Status
  stats : Stats
  status_since : Nat
  waiting_room : WaitingRoom
deriving DecidableEq

namespace RunState

/-- Handler for `input::Announce` (`RunState::handle_announce`). -/
def handle_announce (rs : RunState) (inp : AnnounceInput) : RunState × List Command :=
  match rs.status, inp with
  | .online _, .tick | .started, .tick | .syncing _ _ _, .tick => (rs, [Command.announce])
  | _, _ => (rs, [])

/-- Handler for `input::Control` (`RunState::handle_control`). -/
def handle_control (rs : RunState) (inp : ControlInput) : RunState × List Command :=
  match inp with
  | .cancelRequest urn timestamp sender =>
      match rs.waiting_room.canceled urn timestamp with
      | .ok w =>
          let rm := w.remove urn
          ({ rs with waiting_room := rm.2 },
           [Command.control (.respond (.cancelSearch sender (.ok rm.1))),
            Command.persistWaitingRoom rm.2])
      | .error e =>
          (rs,
           [Command.control (.respond (.cancelSearch sender (.error e))),
            Command.persistWaitingRoom rs.waiting_room])
  | .createRequest urn time sender =>
      let rq := rs.waiting_room.request urn time
      ({ rs with waiting_room := rq.2 },
       [Command.control (.respond (.startSearch sender rq.1)),
        Command.emitEvent (.requestCreated urn)])
  | .getRequest urn sender =>
      (rs, [Command.control (.respond (.getSearch sender (rs.waiting_room.get urn)))])
  | .listRequests sender =>
      (rs, [Command.control (.respond
        (.listSearches sender (rs.waiting_room.entries.map (fun e => e.2))))])
  | .currentStatus sender =>
      (rs, [Command.control (.respond (.currentStatus sender rs.status))])

/-- Handler for `input::Sync` (`RunState::handle_peer_sync`): active only
while Syncing; mutates the three sets, then completes to Online once
`failed.len() + succeeded.len() >= config.sync.max_peers`. Note the
source updates neither `status_since` nor emits commands here. -/
def handle_peer_sync (rs : RunState) (inp : SyncInput) : RunState × List Command :=
  match rs.status with
  | .syncing failed succeeded syncs =>
      let sets :=
        match inp with
        | .started peer => (failed, succeeded, insert peer syncs)
        | .failed peer => (insert peer failed, succeeded, syncs.erase peer)
        | .succeeded peer => (failed, insert peer succeeded, syncs.erase peer)
      let st :=
        if rs.config.sync.max_peers ≤ sets.1.card + sets.2.1.card then
          Status.online rs.stats.connected_peers
        else
          Status.syncing sets.1 sets.2.1 sets.2.2
      ({ rs with status := st }, [])
  | _ => (rs, [])

/-- Handler for `ProtocolEvent`s (`RunState::handle_protocol`): matches
(Stopped, Endpoint::Up), then (_, Endpoint::Down), then (_, Gossip::Put),
all further events hit the wildcard arm. -/
def handle_protocol (rs : RunState) (ev : ProtocolEvent) (now : Nat) : RunState × List Command :=
  match rs.status, ev with
  | .stopped, .endpointUp =>
      ({ rs with status := .started, status_since := now }, [])
  | _, .endpointDown =>
      ({ rs with status := .stopped, status_since := now }, [])
  | _, .gossipPut urn peer =>
      match rs.waiting_room.found urn peer now with
      | .ok w => ({ rs with waiting_room := w }, [])
      | .error .timeOut => (rs, [Command.request (.timedOut urn)])
      | .error .invalidTransition => (rs, [])
  | _, _ => (rs, [])

/-- Handler for `waiting_room::Error`s
(`RunState::handle_waiting_room_timeout`): a timeout becomes a
`Request::TimedOut` command, other errors produce no command. -/
def handle_waiting_room_timeout (urn : Urn) (e : WrError) : List Command :=
  match e with
  | .timeOut => [Command.request (.timedOut urn)]
  | .invalidTransition => []

/-- Success/failure continuation shared by the four mutating `Request`
arms of `RunState::handle_request`: on success install the new room and
persist it, on failure delegate to `handle_waiting_room_timeout`. -/
def afterWrOp (rs : RunState) (res : Except WrError WaitingRoom) (urn : Urn) :
    RunState × List Command :=
  match res with
  | .ok w => ({ rs with waiting_room := w }, [Command.persistWaitingRoom w])
  | .error e => (rs, handle_waiting_room_timeout urn e)

/-- Handler for `input::Request` (`RunState::handle_request`). -/
def handle_request (rs : RunState) (inp : RequestInput) (now : Nat) : RunState × List Command :=
  match rs.status, inp with
  | .online _, .tick | .syncing _ _ _, .tick =>
      let c1 :=
        match rs.waiting_room.next_query now with
        | some urn =>
            [Command.request (.query urn), Command.persistWaitingRoom rs.waiting_room]
        | none => []
      let c2 :=
        match rs.waiting_room.next_clone with
        | some uq =>
            [Command.request (.clone uq.1 uq.2), Command.persistWaitingRoom rs.waiting_room]
        | none => []
      (rs, c1 ++ c2)
  | _, .cloning urn remote_peer => afterWrOp rs (rs.waiting_room.cloning urn remote_peer now) urn
  | _, .cloned urn remote_peer => afterWrOp rs (rs.waiting_room.cloned urn remote_peer now) urn
  | _, .queried urn => afterWrOp rs (rs.waiting_room.queried urn now) urn
  | _, .failed urn remote_peer _ => afterWrOp rs (rs.waiting_room.cloning_failed urn remote_peer now) urn
  | _, _ => (rs, [])

/-- Status/status_since/commands computed by the guarded match inside
`RunState::handle_stats` for a `Stats::Values` input; the Rust arms are
ordered, so each status case first checks the `connected_peers == 0`
guard of the leading arm. -/
def statsCase (rs : RunState) (connected_peers : List PeerId) (stats : Stats) (now : Nat) :
    Status × Nat × List Command :=
  match rs.status with
  | .stopped => (rs.status, rs.status_since, [])
  | .started =>
      if stats.connected_peers = 0 then (.offline, now, [])
      else if rs.config.sync.on_startup then
        (.syncing ∅ ∅ ∅, now,
         connected_peers.map Command.syncPeer
           ++ [Command.startSyncTimeout rs.config.sync.period])
      else (.online stats.connected_peers, now, [])
  | .offline =>
      if 0 < stats.connected_peers then
        (.online stats.connected_peers, rs.status_since, [])
      else (rs.status, rs.status_since, [])
  | .syncing failed succeeded syncs =>
      if stats.connected_peers = 0 then (.offline, now, [])
      else
        (.syncing failed succeeded syncs, rs.status_since,
         ((connected_peers.eraseDups.filter (fun p => ¬ p ∈ rs.connected_peers)).map
           Command.syncPeer))
  | .online _ =>
      if stats.connected_peers = 0 then (.offline, now, [])
      else (rs.status, rs.status_since, [])

/-- Handler for `input::Stats` (`RunState::handle_stats`); after the
status match, `connected_peers` and `stats` are overwritten from the
input unconditionally. -/
def handle_stats (rs : RunState) (inp : StatsInput) (now : Nat) : RunState × List Command :=
  match inp with
  | .tick => (rs, [Command.stats])
  | .values connected_peers stats =>
      let r := statsCase rs connected_peers stats now
      ({ rs with
          status := r.1, status_since := r.2.1,
          connected_peers := connected_peers.toFinset, stats := stats },
       r.2.2)

/-- Handler for `input::Timeout` (`RunState::handle_timeout`). -/
def handle_timeout (rs : RunState) (inp : TimeoutInput) (now : Nat) : RunState × List Command :=
  match rs.status, inp with
  | .syncing _ _ _, .syncPeriod =>
      ({ rs with status := .online rs.connected_peers.card, status_since := now }, [])
  | _, _ => (rs, [])

/-- The reducer (`RunState::transition`): applies the input and returns
the new state together with the commands for the subroutines. -/
def transition (rs : RunState) (inp : Input) (now : Nat) : RunState × List Command :=
  match inp with
  | .announce i => rs.handle_announce i
  | .control i => rs.handle_control i
  | .protocol e => rs.handle_protocol e now
  | .peerSync i => rs.handle_peer_sync i
  | .request i => rs.handle_request i now
  | .stats i => rs.handle_stats i now
  | .timeout i => rs.handle_timeout i now

/-- Iterated reducer: applies a sequence of clock-stamped inputs. -/
def run (rs : RunState) : List (Input × Nat) → RunState
  | [] => rs
  | it :: rest => ((rs.transition it.1 it.2).1).run rest

end RunState

/-- The fresh state produced by `RunState::new`: no connected peers,
default stats, status Stopped. -/
def RunState.new (config : Config) (waiting_room : WaitingRoom) (now : Nat) : RunState :=
  { config := config, connected_peers := ∅, status := .stopped
    stats := { connected_peers := 0 }, status_since := now, waiting_room := waiting_room }

/-! ## Derived predicates -/

/-- Pairwise disjointness of the three Syncing sets; trivially true in
any other status. -/
def statusSetsDisjoint : Status → Prop
  | .syncing failed succeeded syncs =>
      failed ∩ succeeded = ∅ ∧ failed ∩ syncs = ∅ ∧ succeeded ∩ syncs = ∅
  | _ => True

instance instDecStatusSetsDisjoint : (st : Status) → Decidable (statusSetsDisjoint st)
  | .syncing _ _ _ => inferInstanceAs (Decidable (_ ∧ _ ∧ _))
  | .stopped => inferInstanceAs (Decidable True)
  | .started => inferInstanceAs (Decidable True)
  | .offline => inferInstanceAs (Decidable True)
  | .online _ => inferInstanceAs (Decidable True)

/-- Whether a status is Online or Syncing (the guard of the
`Request::Tick` and `Announce::Tick` relevant arms). -/
def Status.isOnlineOrSyncing : Status → Bool
  | .online _ => true
  | .syncing _ _ _ => true
  | _ => false

/-- Whether a status is Online, Syncing or Started (the statuses sent to
Offline by a zero-peer stats report). -/
def Status.isOnlineSyncingStarted : Status → Bool
  | .online _ => true
  | .syncing _ _ _ => true
  | .started => true
  | _ => false

/-! ## Concrete fixtures used by witnesses and counterexamples -/

/-- Fixture configuration: sync on startup, two peers finish the sync. -/
def exConfig : Config := { sync := { on_startup := true, max_peers := 2, period := 9 } }

/-- Fixture waiting-room configuration. -/
def exWrConfig : WrConfig := { query_interval := 1, max_queries := 3, max_clones := 3 }

/-- Fixture empty waiting room. -/
def exEmptyRoom : WaitingRoom := { config := exWrConfig, entries := [] }

/-- Fixture fresh waiting-room entry. -/
def exReq : WrRequest :=
  { state := .created, candidates := [], attempted := [],
    queries := 0, clones := 0, created_at := 0, last_queried := none }

/-- Fixture initial run state. -/
def exInit : RunState := RunState.new exConfig exEmptyRoom 0

/-- Fixture: configuration with sync on startup disabled. -/
def exConfigNoSync : Config := { sync := { on_startup := false, max_peers := 2, period := 9 } }

/-- Fixture: offline state with an old status_since stamp. -/
def exOffline : RunState := { exInit with status := .offline, status_since := 7 }

/-- Fixture: syncing state one successful peer short of max_peers. -/
def exSyncingOne : RunState :=
  { exInit with
    status := .syncing ∅ ({3} : Finset PeerId) ∅
    status_since := 7
    stats := { connected_peers := 1 } }

/-- Fixture: online state whose waiting room holds one fresh entry for
URN 7. -/
def exTick : RunState :=
  { exInit with
    status := .online 1
    waiting_room := { config := exWrConfig, entries := [(7, exReq)] } }

/-- Whether a command is a PersistWaitingRoom snapshot. -/
def Command.isPersist : Command → Bool
  | .persistWaitingRoom _ => true
  | _ => false

/-! ## Merge-request discovery (merge_request.rs)

The reducer model above is independent of this part. `list` walks the
project peers, matches references under the tag category with the
refspec pattern of merge requests, resolves each reference target as an
annotated tag and builds one record per reference. Tag names are
modelled as character lists so that all operations evaluate. -/

/-- Git object types, as reported by a tag target type. -/
inductive ObjType
  | commit
  | tree
  | blob
  | tag
deriving DecidableEq

/-- The slice of the monorepo object database that `list` reads: an
annotated tag object carrying its name, target type, target id and
message, or an object of another kind (for which find_tag fails). -/
inductive GitObject
  | tag (name : List Char) (targetType : ObjType) (targetId : Oid) (message : Option (List Char))
  | commit
  | blob
deriving DecidableEq

/-- A reference matched by the merge-request refspec pattern; `target`
is none for a reference without a direct target (whose unwrap aborts). -/
structure GitRef where
  target : Option Oid
deriving DecidableEq

/-- A project peer as enumerated by `list_project_peers`. -/
inductive ProjectPeer
  | localPeer
  | remotePeer (peer_id : PeerId)
deriving DecidableEq

/-- One merge-request record (`MergeRequest` in merge_request.rs). -/
structure MergeRequest where
  id : List Char
  merged : Bool
  peer : ProjectPeer
  message : Option (List Char)
  commit : Oid
deriving DecidableEq

/-- Failure modes of `list`: a git error propagated by the question-mark
operator (find_tag on a non-tag object), an unwrap abort (missing target
or tag name without the expected name start), or the assert on the tag
target type. -/
inductive ListError
  | gitError
  | unwrapFailed
  | assertFailed
deriving DecidableEq

/-- The fixed name start of merge-request tags. -/
def mrTagStart : List Char :=
  ['m', 'e', 'r', 'g', 'e', '-', 'r', 'e', 'q', 'u', 'e', 's', 't', '/']

/-- Object lookup in the monorepo database. -/
def lookupObj (objects : List (Oid × GitObject)) (oid : Oid) : Option GitObject :=
  (objects.find? (fun e => e.1 = oid)).map (fun e => e.2)

namespace merge_request

/-- Processing of one matched reference, in the order of the source:
unwrap the reference target, find_tag with error propagation, unwrap the
stripped tag name, assert that the tag target type is a commit, and
build the record with merged hard-coded to false and the commit field
set to the tag target id. -/
def processRef (objects : List (Oid × GitObject)) (peer : ProjectPeer) (r : GitRef) :
    Except ListError MergeRequest :=
  match r.target with
  | none => .error .unwrapFailed
  | some oid =>
      match lookupObj objects oid with
      | some (.tag name targetType targetId message) =>
          if mrTagStart.isPrefixOf name then
            if targetType = .commit then
              .ok { id := name.drop mrTagStart.length, merged := false, peer := peer,
                    message := message, commit := targetId }
            else .error .assertFailed
          else .error .unwrapFailed
      | _ => .error .gitError

/-- Processing of all matched references of one peer, first failure
aborting the whole enumeration (the question-mark operator inside the
loop). -/
def listRefsFor (objects : List (Oid × GitObject)) (peer : ProjectPeer) :
    List GitRef → Except ListError (List MergeRequest)
  | [] => .ok []
  | r :: rest =>
      match processRef objects peer r with
      | .error e => .error e
      | .ok mr =>
          match listRefsFor objects peer rest with
          | .error e => .error e
          | .ok ms => .ok (mr :: ms)

/-- The merge-request enumeration (`merge_request::list`): fold over the
project peers with their matched references, accumulating records,
aborting on the first failure. -/
def list (objects : List (Oid × GitObject)) :
    List (ProjectPeer × List GitRef) → Except ListError (List MergeRequest)
  | [] => .ok []
  | pr :: rest =>
      match listRefsFor objects pr.1 pr.2 with
      | .error e => .error e
      | .ok ms =>
          match list objects rest with
          | .error e => .error e
          | .ok more => .ok (ms ++ more)

end merge_request

/-- The record shape the claim describes: the record stems from an
annotated tag whose target type is a commit, the record commit field is
the tag target id, the id is the tag name with the merge-request name
start removed, and merged is false. -/
def fromCommitTag (objects : List (Oid × GitObject)) (mr : MergeRequest) : Prop :=
  ∃ oid name,
    lookupObj objects oid = some (.tag name .commit mr.commit mr.message) ∧
    mrTagStart.isPrefixOf name = true ∧
    mr.id = name.drop mrTagStart.length ∧
    mr.merged = false

/-! ## Helper lemmas -/

/-- An intersection of finsets is empty iff no element lies in both. -/
theorem finset_inter_eq_empty_iff {A B : Finset Nat} :
    A ∩ B = ∅ ↔ ∀ x, x ∈ A → x ∉ B := by
  simp [Finset.eq_empty_iff_forall_not_mem, Finset.mem_inter]

/-! ## Claims -/

/-- C1 counterexample: from the reachable state Syncing with all three
sets empty (entered from Started with sync on startup), the input
sequence Started(1), Failed(1), Started(1) leaves peer 1 in both
`failed` and `syncs`, so `handle_peer_sync` does not preserve pairwise
disjointness for every PeerSync input. -/
theorem C1_counterexample :
    (RunState.run exInit
       [(.protocol .endpointUp, 1),
        (.stats (.values [1] { connected_peers := 1 }), 2),
        (.peerSync (.started 1), 3),
        (.peerSync (.failed 1), 4),
        (.peerSync (.started 1), 5)]).status = Status.syncing {1} ∅ {1} ∧
    ¬ statusSetsDisjoint (Status.syncing {1} ∅ {1}) := by
  decide

/-- C1 (amended): `handle_peer_sync` preserves pairwise disjointness of
the Syncing sets provided the input peer is not already recorded in a
conflicting set: Started(p) requires p outside `failed` and `succeeded`,
Failed(p) requires p outside `succeeded`, and Succeeded(p) requires p
outside `failed`; Sync::Started never removes its peer from `failed` or
`succeeded`, so over arbitrary input sequences the three sets need not
stay pairwise disjoint. -/
theorem C1_amended_peer_sync_disjoint (rs : RunState) (inp : SyncInput) (now : Nat)
    (failed succeeded syncs : Finset PeerId)
    (hst : rs.status = .syncing failed succeeded syncs)
    (hdisj : statusSetsDisjoint rs.status)
    (hguard : match inp with
      | .started p => p ∉ failed ∧ p ∉ succeeded
      | .failed p => p ∉ succeeded
      | .succeeded p => p ∉ failed) :
    statusSetsDisjoint (rs.transition (.peerSync inp) now).1.status := by
  obtain ⟨cfg, cp, st, sts, since, wr⟩ := rs
  subst hst
  simp only [RunState.transition, RunState.handle_peer_sync] at hdisj ⊢
  obtain ⟨h1, h2, h3⟩ := hdisj
  rw [finset_inter_eq_empty_iff] at h1 h2 h3
  cases inp with
  | started p =>
      obtain ⟨hp1, hp2⟩ := hguard
      dsimp only
      split
      · trivial
      · refine ⟨?_, ?_, ?_⟩ <;> rw [finset_inter_eq_empty_iff] <;> intro x hx hmem
        · exact h1 x hx hmem
        · simp only [Finset.mem_insert] at hmem
          rcases hmem with rfl | hmem
          · exact hp1 hx
          · exact h2 x hx hmem
        · simp only [Finset.mem_insert] at hmem
          rcases hmem with rfl | hmem
          · exact hp2 hx
          · exact h3 x hx hmem
  | failed p =>
      dsimp only
      split
      · trivial
      · refine ⟨?_, ?_, ?_⟩ <;> rw [finset_inter_eq_empty_iff] <;> intro x hx hmem
        · simp only [Finset.mem_insert] at hx
          rcases hx with rfl | hx
          · exact hguard hmem
          · exact h1 x hx hmem
        · simp only [Finset.mem_insert] at hx
          simp only [Finset.mem_erase] at hmem
          rcases hx with rfl | hx
          · exact hmem.1 rfl
          · exact h2 x hx hmem.2
        · simp only [Finset.mem_erase] at hmem
          exact h3 x hx hmem.2
  | succeeded p =>
      dsimp only
      split
      · trivial
      · refine ⟨?_, ?_, ?_⟩ <;> rw [finset_inter_eq_empty_iff] <;> intro x hx hmem
        · simp only [Finset.mem_insert] at hmem
          rcases hmem with rfl | hmem
          · exact hguard hx
          · exact h1 x hx hmem
        · simp only [Finset.mem_erase] at hmem
          exact h2 x hx hmem.2
        · simp only [Finset.mem_insert] at hx
          simp only [Finset.mem_erase] at hmem
          rcases hx with rfl | hx
          · exact hmem.1 rfl
          · exact h3 x hx hmem.2

/-- C1 amended witness: concrete application at a Syncing state holding
one failed peer, for input Started(2). -/
theorem C1_amended_witness :
    statusSetsDisjoint
      (RunState.transition
        { exInit with status := .syncing {1} ∅ ∅ } (.peerSync (.started 2)) 6).1.status :=
  C1_amended_peer_sync_disjoint _ (.started 2) 6 {1} ∅ ∅ rfl (by decide) (by decide)

/-- C3 (code bug evidence): in the reachable state obtained after the
endpoint comes up and a stats report connects peer 2, the inputs
Connected(1), Connected(1), Disconnecting(1) — two increments against
one decrement — all fall to the wildcard arm of `handle_protocol`:
no per-peer count exists, `connected_peers` is left exactly as the last
stats report set it, and peer 1 is not a member. -/
theorem C3_connection_events_ignored :
    (RunState.run exInit
       [(.protocol .endpointUp, 1),
        (.stats (.values [2] { connected_peers := 1 }), 2),
        (.protocol (.connected 1), 3),
        (.protocol (.connected 1), 4),
        (.protocol (.disconnecting 1), 5)]).connected_peers = {2} ∧
    ¬ (1 ∈ (RunState.run exInit
       [(.protocol .endpointUp, 1),
        (.stats (.values [2] { connected_peers := 1 }), 2),
        (.protocol (.connected 1), 3),
        (.protocol (.connected 1), 4),
        (.protocol (.disconnecting 1), 5)]).connected_peers) := by
  decide

/-- C4 (code bug evidence): two status changes leave `status_since`
untouched although the clock reads 100 and the stamp reads 7: the
Offline-to-Online arm of `handle_stats`, and the Syncing-to-Online
completion of `handle_peer_sync` when max_peers is reached. -/
theorem C4_status_since_not_updated :
    ((exOffline.transition (.stats (.values [1] { connected_peers := 1 })) 100).1.status =
        .online 1 ∧
     (exOffline.transition (.stats (.values [1] { connected_peers := 1 })) 100).1.status_since
        = 7) ∧
    ((exSyncingOne.transition (.peerSync (.succeeded 4)) 100).1.status = .online 1 ∧
     (exSyncingOne.transition (.peerSync (.succeeded 4)) 100).1.status_since = 7) := by
  decide

/-- C2: for a Stats::Values(L, s) input, `handle_stats` follows the spec
table: Online/Syncing/Started with zero connected peers go Offline with
no commands; Offline with a positive count goes Online{connected}; Started
with sync on startup goes Syncing with three empty sets emitting
SyncPeer(p) for every p in L followed by StartSyncTimeout(period);
Started without sync on startup goes Online{connected}; Syncing keeps its
status and emits SyncPeer for each newly appeared peer of L; all other
cases keep the status and emit nothing; in every case connected_peers
and stats are overwritten from the input. -/
theorem C2_handle_stats_table (rs : RunState) (L : List PeerId) (s : Stats) (now : Nat) :
    ((rs.transition (.stats (.values L s)) now).1.connected_peers = L.toFinset ∧
     (rs.transition (.stats (.values L s)) now).1.stats = s) ∧
    (rs.status.isOnlineSyncingStarted = true → s.connected_peers = 0 →
      (rs.transition (.stats (.values L s)) now).1.status = .offline ∧
      (rs.transition (.stats (.values L s)) now).2 = []) ∧
    (rs.status = .offline → 0 < s.connected_peers →
      (rs.transition (.stats (.values L s)) now).1.status = .online s.connected_peers ∧
      (rs.transition (.stats (.values L s)) now).2 = []) ∧
    (rs.status = .started → rs.config.sync.on_startup = true → 0 < s.connected_peers →
      (rs.transition (.stats (.values L s)) now).1.status = .syncing ∅ ∅ ∅ ∧
      (rs.transition (.stats (.values L s)) now).2 =
        L.map Command.syncPeer ++ [Command.startSyncTimeout rs.config.sync.period]) ∧
    (rs.status = .started → rs.config.sync.on_startup = false → 0 < s.connected_peers →
      (rs.transition (.stats (.values L s)) now).1.status = .online s.connected_peers ∧
      (rs.transition (.stats (.values L s)) now).2 = []) ∧
    (∀ failed succeeded syncs, rs.status = .syncing failed succeeded syncs →
      0 < s.connected_peers →
      (rs.transition (.stats (.values L s)) now).1.status = rs.status ∧
      (rs.transition (.stats (.values L s)) now).2 =
        (L.eraseDups.filter (fun p => ¬ p ∈ rs.connected_peers)).map Command.syncPeer) ∧
    (rs.status = .stopped ∨ (rs.status = .offline ∧ s.connected_peers = 0) ∨
        ((∃ c, rs.status = .online c) ∧ 0 < s.connected_peers) →
      (rs.transition (.stats (.values L s)) now).1.status = rs.status ∧
      (rs.transition (.stats (.values L s)) now).2 = []) := by
  obtain ⟨cfg, cp, st, sts, since, wr⟩ := rs
  refine ⟨⟨rfl, rfl⟩, ?_, ?_, ?_, ?_, ?_, ?_⟩
  · intro hkind h0
    cases st <;> simp_all [Status.isOnlineSyncingStarted, RunState.transition,
      RunState.handle_stats, RunState.statsCase]
  · intro hst hpos
    subst hst
    simp [RunState.transition, RunState.handle_stats, RunState.statsCase, hpos]
  · intro hst hsync hpos
    subst hst
    have h1 : cfg.sync.on_startup = true := hsync
    have h0 : ¬ s.connected_peers = 0 := by omega
    simp [RunState.transition, RunState.handle_stats, RunState.statsCase, h0, h1]
  · intro hst hsync hpos
    subst hst
    have h1 : cfg.sync.on_startup = false := hsync
    have h0 : ¬ s.connected_peers = 0 := by omega
    simp [RunState.transition, RunState.handle_stats, RunState.statsCase, h0, h1]
  · intro failed succeeded syncs hst hpos
    subst hst
    have h0 : ¬ s.connected_peers = 0 := by omega
    simp [RunState.transition, RunState.handle_stats, RunState.statsCase, h0]
  · intro h
    rcases h with hst | ⟨hst, h0⟩ | ⟨⟨c, hst⟩, hpos⟩ <;> subst hst
    · simp [RunState.transition, RunState.handle_stats, RunState.statsCase]
    · simp [RunState.transition, RunState.handle_stats, RunState.statsCase, h0]
    · have h0 : ¬ s.connected_peers = 0 := by omega
      simp [RunState.transition, RunState.handle_stats, RunState.statsCase, h0]

/-- C2 witness: the six table rows applied at concrete states. -/
theorem C2_witness :
    (((RunState.transition { exInit with status := .online 2 }
         (.stats (.values [] { connected_peers := 0 })) 9).1.status = .offline ∧
      (RunState.transition { exInit with status := .online 2 }
         (.stats (.values [] { connected_peers := 0 })) 9).2 = []) ∧
     ((exOffline.transition (.stats (.values [1] { connected_peers := 1 })) 9).1.status =
         .online 1 ∧
      (exOffline.transition (.stats (.values [1] { connected_peers := 1 })) 9).2 = []) ∧
     ((RunState.transition { exInit with status := .started }
         (.stats (.values [1, 2] { connected_peers := 2 })) 9).1.status = .syncing ∅ ∅ ∅ ∧
      (RunState.transition { exInit with status := .started }
         (.stats (.values [1, 2] { connected_peers := 2 })) 9).2 =
        [Command.syncPeer 1, Command.syncPeer 2, Command.startSyncTimeout 9]) ∧
     ((RunState.transition { RunState.new exConfigNoSync exEmptyRoom 0 with status := .started }
         (.stats (.values [1] { connected_peers := 1 })) 9).1.status = .online 1 ∧
      (RunState.transition { RunState.new exConfigNoSync exEmptyRoom 0 with status := .started }
         (.stats (.values [1] { connected_peers := 1 })) 9).2 = []) ∧
     ((RunState.transition { exInit with status := .syncing ∅ ∅ ∅, connected_peers := {1} }
         (.stats (.values [1, 4] { connected_peers := 2 })) 9).1.status = .syncing ∅ ∅ ∅ ∧
      (RunState.transition { exInit with status := .syncing ∅ ∅ ∅, connected_peers := {1} }
         (.stats (.values [1, 4] { connected_peers := 2 })) 9).2 = [Command.syncPeer 4]) ∧
     ((exInit.transition (.stats (.values [1] { connected_peers := 1 })) 9).1.status =
         .stopped ∧
      (exInit.transition (.stats (.values [1] { connected_peers := 1 })) 9).2 = [])) := by
  refine ⟨?_, ?_, ?_, ?_, ?_, ?_⟩
  · exact (C2_handle_stats_table { exInit with status := .online 2 } []
      { connected_peers := 0 } 9).2.1 rfl rfl
  · exact (C2_handle_stats_table exOffline [1] { connected_peers := 1 } 9).2.2.1 rfl
      (by decide)
  · have h := (C2_handle_stats_table { exInit with status := .started } [1, 2]
      { connected_peers := 2 } 9).2.2.2.1 rfl rfl (by decide)
    simpa using h
  · exact (C2_handle_stats_table
      { RunState.new exConfigNoSync exEmptyRoom 0 with status := .started } [1]
      { connected_peers := 1 } 9).2.2.2.2.1 rfl rfl (by decide)
  · have h := (C2_handle_stats_table
      { exInit with status := .syncing ∅ ∅ ∅, connected_peers := {1} } [1, 4]
      { connected_peers := 2 } 9).2.2.2.2.2.1 ∅ ∅ ∅ rfl (by decide)
    exact ⟨h.1, by rw [h.2]; decide⟩
  · exact (C2_handle_stats_table exInit [1] { connected_peers := 1 } 9).2.2.2.2.2.2
      (Or.inl rfl)

/-- C5: on Request::Tick, a status that is neither Online nor Syncing
yields no commands; Online or Syncing yields Query(urn) plus
PersistWaitingRoom when next_query is Some, followed by Clone(urn, peer)
plus PersistWaitingRoom when next_clone is Some — zero, one or two work
commands and up to two persistence commands, in that order. -/
theorem C5_request_tick (rs : RunState) (now : Nat) :
    (rs.status.isOnlineOrSyncing = false → (rs.transition (.request .tick) now).2 = []) ∧
    (rs.status.isOnlineOrSyncing = true →
      (rs.transition (.request .tick) now).2 =
        (match rs.waiting_room.next_query now with
         | some urn =>
             [Command.request (.query urn), Command.persistWaitingRoom rs.waiting_room]
         | none => []) ++
        (match rs.waiting_room.next_clone with
         | some uq =>
             [Command.request (.clone uq.1 uq.2), Command.persistWaitingRoom rs.waiting_room]
         | none => [])) := by
  obtain ⟨cfg, cp, st, sts, since, wr⟩ := rs
  cases st <;>
    simp [Status.isOnlineOrSyncing, RunState.transition, RunState.handle_request]

/-- C5 witness: a Stopped state emits nothing on tick; an Online state
with one fresh request emits Query(7) and one persistence snapshot. -/
theorem C5_witness :
    ((exInit.transition (.request .tick) 0).2 = []) ∧
    ((exTick.transition (.request .tick) 50).2 =
      [Command.request (.query 7), Command.persistWaitingRoom exTick.waiting_room]) :=
  ⟨(C5_request_tick exInit 0).1 rfl, (C5_request_tick exTick 50).2 rfl⟩

/-- C6 counterexample: Control::CreateRequest(7) successfully mutates the
waiting room (the post-state room differs from the prior room), yet the
returned command list contains no PersistWaitingRoom. -/
theorem C6_counterexample :
    (exInit.transition (.control (.createRequest 7 0 0)) 0).1.waiting_room ≠
      exInit.waiting_room ∧
    (exInit.transition (.control (.createRequest 7 0 0)) 0).2.any
      (fun c => c.isPersist) = false := by
  decide

/-- C6 (amended): successful waiting-room mutations driven by Request
inputs (queried, cloning, cloned, failed) and by Control::CancelRequest
put a PersistWaitingRoom command in the returned list, but
Control::CreateRequest — although it inserts a new entry into the
waiting room — returns exactly Respond(StartSearch) followed by
EmitEvent(RequestCreated), with no PersistWaitingRoom. -/
theorem C6_amended_persist (rs : RunState) (urn : Urn) (p : PeerId)
    (t sink reason now : Nat) :
    ((rs.transition (.control (.createRequest urn t sink)) now).2 =
       [Command.control (.respond (.startSearch sink (rs.waiting_room.request urn t).1)),
        Command.emitEvent (.requestCreated urn)]) ∧
    (match rs.waiting_room.queried urn now with
     | .ok w =>
         Command.persistWaitingRoom w ∈ (rs.transition (.request (.queried urn)) now).2
     | .error _ => True) ∧
    (match rs.waiting_room.cloning urn p now with
     | .ok w =>
         Command.persistWaitingRoom w ∈ (rs.transition (.request (.cloning urn p)) now).2
     | .error _ => True) ∧
    (match rs.waiting_room.cloned urn p now with
     | .ok w =>
         Command.persistWaitingRoom w ∈ (rs.transition (.request (.cloned urn p)) now).2
     | .error _ => True) ∧
    (match rs.waiting_room.cloning_failed urn p now with
     | .ok w =>
         Command.persistWaitingRoom w ∈
           (rs.transition (.request (.failed urn p reason)) now).2
     | .error _ => True) ∧
    (Command.persistWaitingRoom
       (rs.transition (.control (.cancelRequest urn t sink)) now).1.waiting_room ∈
       (rs.transition (.control (.cancelRequest urn t sink)) now).2) := by
  obtain ⟨cfg, cp, st, sts, since, wr⟩ := rs
  refine ⟨rfl, ?_, ?_, ?_, ?_, ?_⟩
  · cases hq : wr.queried urn now with
    | ok w =>
        cases st <;>
          simp [RunState.transition, RunState.handle_request, RunState.afterWrOp, hq]
    | error e => trivial
  · cases hq : wr.cloning urn p now with
    | ok w =>
        cases st <;>
          simp [RunState.transition, RunState.handle_request, RunState.afterWrOp, hq]
    | error e => trivial
  · cases hq : wr.cloned urn p now with
    | ok w =>
        cases st <;>
          simp [RunState.transition, RunState.handle_request, RunState.afterWrOp, hq]
    | error e => trivial
  · cases hq : wr.cloning_failed urn p now with
    | ok w =>
        cases st <;>
          simp [RunState.transition, RunState.handle_request, RunState.afterWrOp, hq]
    | error e => trivial
  · cases hc : wr.canceled urn t with
    | ok w => simp [RunState.transition, RunState.handle_control, hc]
    | error e => simp [RunState.transition, RunState.handle_control, hc]

/-- C7: for the four mutating Request inputs the command list is exactly
one PersistWaitingRoom on success, exactly Request::TimedOut(urn) when
the waiting-room operation fails with TimeOut, and empty when it fails
with any other error; a Gossip::Put likewise yields exactly
Request::TimedOut(urn) on TimeOut and nothing otherwise. -/
theorem C7_error_commands (rs : RunState) (urn : Urn) (p : PeerId) (reason now : Nat) :
    ((rs.transition (.request (.queried urn)) now).2 =
      (match rs.waiting_room.queried urn now with
       | .ok w => [Command.persistWaitingRoom w]
       | .error .timeOut => [Command.request (.timedOut urn)]
       | .error .invalidTransition => [])) ∧
    ((rs.transition (.request (.cloning urn p)) now).2 =
      (match rs.waiting_room.cloning urn p now with
       | .ok w => [Command.persistWaitingRoom w]
       | .error .timeOut => [Command.request (.timedOut urn)]
       | .error .invalidTransition => [])) ∧
    ((rs.transition (.request (.cloned urn p)) now).2 =
      (match rs.waiting_room.cloned urn p now with
       | .ok w => [Command.persistWaitingRoom w]
       | .error .timeOut => [Command.request (.timedOut urn)]
       | .error .invalidTransition => [])) ∧
    ((rs.transition (.request (.failed urn p reason)) now).2 =
      (match rs.waiting_room.cloning_failed urn p now with
       | .ok w => [Command.persistWaitingRoom w]
       | .error .timeOut => [Command.request (.timedOut urn)]
       | .error .invalidTransition => [])) ∧
    ((rs.transition (.protocol (.gossipPut urn p)) now).2 =
      (match rs.waiting_room.found urn p now with
       | .error .timeOut => [Command.request (.timedOut urn)]
       | _ => [])) := by
  obtain ⟨cfg, cp, st, sts, since, wr⟩ := rs
  refine ⟨?_, ?_, ?_, ?_, ?_⟩
  · cases hq : wr.queried urn now with
    | ok w =>
        cases st <;>
          simp [RunState.transition, RunState.handle_request, RunState.afterWrOp, hq]
    | error e =>
        cases e <;> cases st <;>
          simp [RunState.transition, RunState.handle_request, RunState.afterWrOp,
            RunState.handle_waiting_room_timeout, hq]
  · cases hq : wr.cloning urn p now with
    | ok w =>
        cases st <;>
          simp [RunState.transition, RunState.handle_request, RunState.afterWrOp, hq]
    | error e =>
        cases e <;> cases st <;>
          simp [RunState.transition, RunState.handle_request, RunState.afterWrOp,
            RunState.handle_waiting_room_timeout, hq]
  · cases hq : wr.cloned urn p now with
    | ok w =>
        cases st <;>
          simp [RunState.transition, RunState.handle_request, RunState.afterWrOp, hq]
    | error e =>
        cases e <;> cases st <;>
          simp [RunState.transition, RunState.handle_request, RunState.afterWrOp,
            RunState.handle_waiting_room_timeout, hq]
  · cases hq : wr.cloning_failed urn p now with
    | ok w =>
        cases st <;>
          simp [RunState.transition, RunState.handle_request, RunState.afterWrOp, hq]
    | error e =>
        cases e <;> cases st <;>
          simp [RunState.transition, RunState.handle_request, RunState.afterWrOp,
            RunState.handle_waiting_room_timeout, hq]
  · cases hq : wr.found urn p now with
    | ok w =>
        cases st <;> simp [RunState.transition, RunState.handle_protocol, hq]
    | error e =>
        cases e <;> cases st <;> simp [RunState.transition, RunState.handle_protocol, hq]

/-- C8: processing the same Stats::Values(L, s) input twice in a row with
a fixed clock yields the same status, connected_peers and stats as
processing it once. -/
theorem C8_stats_idempotent (rs : RunState) (L : List PeerId) (s : Stats) (now : Nat) :
    (((rs.transition (.stats (.values L s)) now).1.transition
        (.stats (.values L s)) now).1.status =
      (rs.transition (.stats (.values L s)) now).1.status) ∧
    (((rs.transition (.stats (.values L s)) now).1.transition
        (.stats (.values L s)) now).1.connected_peers =
      (rs.transition (.stats (.values L s)) now).1.connected_peers) ∧
    (((rs.transition (.stats (.values L s)) now).1.transition
        (.stats (.values L s)) now).1.stats =
      (rs.transition (.stats (.values L s)) now).1.stats) := by
  refine ⟨?_, rfl, rfl⟩
  obtain ⟨cfg, cp, st, sts, since, wr⟩ := rs
  by_cases h0 : s.connected_peers = 0
  · cases st <;>
      simp [RunState.transition, RunState.handle_stats, RunState.statsCase, h0]
  · have hpos : 0 < s.connected_peers := Nat.pos_of_ne_zero h0
    cases st <;>
      simp [RunState.transition, RunState.handle_stats, RunState.statsCase, h0, hpos] <;>
      by_cases hs : cfg.sync.on_startup <;>
      simp [RunState.statsCase, hs, h0, hpos]

/-- After removing a URN, the waiting room has no entry for it. -/
theorem waiting_room_get_remove_self (w : WaitingRoom) (urn : Urn) :
    ((w.remove urn).2).get urn = none := by
  simp only [WaitingRoom.remove, WaitingRoom.get]
  generalize w.entries = l
  induction l with
  | nil => rfl
  | cons e rest ih =>
      by_cases h : e.1 = urn
      · simpa [List.filter_cons, h] using ih
      · simpa [List.filter_cons, List.find?_cons, h] using ih

/-- C10: Control::CancelRequest always returns exactly two commands, a
CancelSearch response carrying the outcome followed by a
PersistWaitingRoom snapshot of the post-state room; the entry is removed
exactly when the canceled operation succeeded, and on failure the room
is unchanged while the snapshot command is still emitted. -/
theorem C10_cancel_request (rs : RunState) (urn : Urn) (t sink now : Nat) :
    ((rs.transition (.control (.cancelRequest urn t sink)) now).2 =
      [Command.control (.respond (.cancelSearch sink
         (match rs.waiting_room.canceled urn t with
          | .ok w => .ok (w.remove urn).1
          | .error e => .error e))),
       Command.persistWaitingRoom
         (rs.transition (.control (.cancelRequest urn t sink)) now).1.waiting_room]) ∧
    (match rs.waiting_room.canceled urn t with
     | .ok w =>
         (rs.transition (.control (.cancelRequest urn t sink)) now).1.waiting_room =
           (w.remove urn).2 ∧
         (rs.transition (.control (.cancelRequest urn t sink)) now).1.waiting_room.get urn
           = none
     | .error _ =>
         (rs.transition (.control (.cancelRequest urn t sink)) now).1.waiting_room =
           rs.waiting_room) := by
  obtain ⟨cfg, cp, st, sts, since, wr⟩ := rs
  cases hc : wr.canceled urn t with
  | ok w =>
      refine ⟨?_, ?_⟩
      · simp [RunState.transition, RunState.handle_control, hc]
      · simp only [RunState.transition, RunState.handle_control, hc]
        exact ⟨trivial, waiting_room_get_remove_self w urn⟩
  | error e =>
      refine ⟨?_, ?_⟩
      · simp [RunState.transition, RunState.handle_control, hc]
      · simp [RunState.transition, RunState.handle_control, hc]

/-- A reference accepted by processRef satisfies the record shape of the
claim. -/
theorem processRef_ok_shape (objects : List (Oid × GitObject)) (peer : ProjectPeer)
    (r : GitRef) (mr : MergeRequest)
    (h : merge_request.processRef objects peer r = .ok mr) :
    fromCommitTag objects mr := by
  unfold merge_request.processRef at h
  cases hr : r.target with
  | none => simp only [hr] at h; cases h
  | some oid =>
      simp only [hr] at h
      cases hl : lookupObj objects oid with
      | none => simp only [hl] at h; cases h
      | some obj =>
          cases obj with
          | commit => simp only [hl] at h; cases h
          | blob => simp only [hl] at h; cases h
          | tag name targetType targetId message =>
              simp only [hl] at h
              by_cases hp : mrTagStart.isPrefixOf name = true
              · rw [if_pos hp] at h
                by_cases ht : targetType = ObjType.commit
                · rw [if_pos ht] at h
                  cases h
                  subst ht
                  exact ⟨oid, name, hl, hp, rfl, rfl⟩
                · rw [if_neg ht] at h; cases h
              · rw [if_neg hp] at h; cases h

/-- All records returned for one peer satisfy the record shape. -/
theorem listRefsFor_ok_shape (objects : List (Oid × GitObject)) (peer : ProjectPeer) :
    ∀ refs res, merge_request.listRefsFor objects peer refs = .ok res →
      ∀ mr ∈ res, fromCommitTag objects mr := by
  intro refs
  induction refs with
  | nil =>
      intro res h mr hm
      unfold merge_request.listRefsFor at h
      cases h
      cases hm
  | cons r rest ih =>
      intro res h mr hm
      unfold merge_request.listRefsFor at h
      cases hp : merge_request.processRef objects peer r with
      | error e => rw [hp] at h; cases h
      | ok m1 =>
          rw [hp] at h
          cases hrest : merge_request.listRefsFor objects peer rest with
          | error e => rw [hrest] at h; cases h
          | ok ms =>
              rw [hrest] at h
              cases h
              cases hm with
              | head => exact processRef_ok_shape objects peer r _ hp
              | tail _ hm2 => exact ih ms hrest _ hm2

/-- C9 counterexample: with one reference to an annotated commit tag and
one reference to a plain commit object, `list` does not return the one
good record with the bad reference excluded — it propagates the
find_tag error and returns no list at all. -/
theorem C9_counterexample :
    merge_request.list
      [(1, .tag (mrTagStart ++ ['x']) .commit 10 none), (2, .commit)]
      [(.remotePeer 5, [{ target := some 1 }, { target := some 2 }])] =
      .error .gitError := by
  decide

/-- C9 (amended): every record in a successfully returned list is built
from a reference resolving to an annotated tag whose target type is a
commit, with the record commit field equal to the tag target commit;
however a matched reference that does not point to such a tag is not
merely excluded: a reference to a non-tag object aborts the whole call
with the propagated git error, and a tag whose target is not a commit
aborts via the assert, so no partial list is returned. -/
theorem C9_amended_records_from_commit_tags (objects : List (Oid × GitObject))
    (peers : List (ProjectPeer × List GitRef)) (res : List MergeRequest)
    (h : merge_request.list objects peers = .ok res) :
    ∀ mr ∈ res, fromCommitTag objects mr := by
  induction peers generalizing res with
  | nil =>
      unfold merge_request.list at h
      cases h
      intro mr hm
      cases hm
  | cons pr rest ih =>
      unfold merge_request.list at h
      cases hp : merge_request.listRefsFor objects pr.1 pr.2 with
      | error e => rw [hp] at h; cases h
      | ok ms =>
          rw [hp] at h
          cases hrest : merge_request.list objects rest with
          | error e => rw [hrest] at h; cases h
          | ok more =>
              rw [hrest] at h
              cases h
              intro mr hm
              rcases List.mem_append.mp hm with hm1 | hm2
              · exact listRefsFor_ok_shape objects pr.1 pr.2 ms hp mr hm1
              · exact ih more hrest mr hm2

/-- C9 amended witness: a single good reference yields the singleton list
whose record satisfies the claimed shape. -/
theorem C9_amended_witness :
    merge_request.list
      [(1, .tag (mrTagStart ++ ['x']) .commit 10 none)]
      [(.remotePeer 5, [{ target := some 1 }])] =
      .ok [{ id := ['x'], merged := false, peer := .remotePeer 5,
             message := none, commit := 10 }] ∧
    fromCommitTag [(1, .tag (mrTagStart ++ ['x']) .commit 10 none)]
      { id := ['x'], merged := false, peer := .remotePeer 5,
        message := none, commit := 10 } :=
  ⟨by decide,
   C9_amended_records_from_commit_tags
     [(1, .tag (mrTagStart ++ ['x']) .commit 10 none)]
     [(.remotePeer 5, [{ target := some 1 }])]
     [{ id := ['x'], merged := false, peer := .remotePeer 5,
        message := none, commit := 10 }]
     (by decide)
     { id := ['x'], merged := false, peer := .remotePeer 5,
       message := none, commit := 10 }
     (by simp)⟩

end Coco
